import Mathlib

set_option maxHeartbeats 1000000

/-! Formal model of the tree-walking interpreter in this repository
(`scanner.rs`, `parser.rs`, `resolver.rs`, `environments.rs`, `expr.rs`,
`interpreter.rs`, `stmt.rs`), as a shallow embedding, together with proofs
about the modelled behaviour.

Conventions used throughout:

* Rust `f64` number payloads are modelled as rationals (`ℚ`); none of the
  verified properties depends on floating-point rounding behaviour.
* A Rust panic is modelled as `none` (or a dedicated constructor such as
  `ResolveOutcome.panicked`); `Result::Err` is modelled as `Except.error`
  or an explicit constructor carrying the message.
* `HashMap<String, V>` is modelled as an association list read through
  `List.lookup`; `mapInsert` prepends, which is observationally the same
  as the map's insert-with-overwrite under `List.lookup`.
* `Rc<dyn Fn(&Vec<LiteralValue>) -> LiteralValue>` callables are modelled
  by an opaque numeric code (`fn : Nat`); where a claim needs the call to
  actually happen, an explicit application function is passed in.
* Loops in the Rust code are modelled either by structural recursion or by
  a fuel parameter large enough that it is never exhausted on the inputs
  considered; fuel exhaustion yields `none`/an error constructor.
-/

/-- Runtime values, from `expr.rs` lines 22-35 (`enum LiteralValue`).
The `fn` field abstracts the `Rc<dyn Fn(&Vec<LiteralValue>) -> LiteralValue>`
implementation payload as an opaque code; `PartialEq` on the Rust side
ignores that field, and so do all functions below. -/
inductive LiteralValue where
  | Number (n : ℚ)
  | StringValue (s : String)
  | True
  | False
  | Nil
  | Callable (name : String) (arity : Nat) (fn : Nat)
deriving DecidableEq

/-- From `expr.rs` lines 176-182 (`LiteralValue::from_bool`). -/
def LiteralValue.from_bool (e : Bool) : LiteralValue :=
  if e then LiteralValue.True else LiteralValue.False

/-- From `expr.rs` lines 89-101 (`LiteralValue::to_type`). -/
def LiteralValue.to_type : LiteralValue → String
  | .Number _ => "Number"
  | .StringValue _ => "String"
  | .True | .False => "Boolean"
  | .Nil => "Nil"
  | .Callable _ _ _ => "Callable"

/-- From `expr.rs` lines 146-173 (`LiteralValue::is_truthy`).
Returns `none` exactly where the Rust code panics
(`panic!("Cannot use callable as truthy value")`). -/
def LiteralValue.is_truthy : LiteralValue → Option LiteralValue
  | .Number e => if e = 0 then some .False else some .True
  | .StringValue s => if s.isEmpty then some .False else some .True
  | .True => some .True
  | .False => some .False
  | .Nil => some .False
  | .Callable _ _ _ => none

/-- From `expr.rs` lines 116-143 (`LiteralValue::is_falsy`).
Returns `none` exactly where the Rust code panics. -/
def LiteralValue.is_falsy : LiteralValue → Option LiteralValue
  | .Number e => if e = 0 then some .True else some .False
  | .StringValue s => if s.isEmpty then some .True else some .False
  | .False => some .True
  | .True => some .False
  | .Nil => some .True
  | .Callable _ _ _ => none

/-- Boolean negation on the `True`/`False` values (identity elsewhere);
used only to state the relation between `is_falsy` and `is_truthy`. -/
def LiteralValue.notLV : LiteralValue → LiteralValue
  | .True => .False
  | .False => .True
  | v => v

/-- From `expr.rs` lines 43-70 (`impl PartialEq for LiteralValue`, method `eq`).
The wildcard arm of the Rust `match` is
`panic!("Error in PartialEq of LiteralValue")`, modelled as `none`.
The match arms appear in the source order. -/
def LiteralValue.eq : LiteralValue → LiteralValue → Option Bool
  | .Number x, .Number y => some (decide (x = y))
  | .StringValue x, .StringValue y => some (decide (x = y))
  | .False, .False => some true
  | .True, .True => some true
  | .False, .True => some false
  | .True, .False => some false
  | .Nil, .Nil => some true
  | .Callable name arity _, .Callable name2 arity2 _ =>
      some (decide (name = name2) && decide (arity = arity2))
  | _, _ => none

/-- From `expr.rs` line 514: the `Binary` arm
`(left, right, TokenType::EqualEqual) => LiteralValue::from_bool(left == right)`;
a panic inside `PartialEq` propagates, hence the `Option`. -/
def evalEqualEqual (l r : LiteralValue) : Option LiteralValue :=
  (LiteralValue.eq l r).map LiteralValue.from_bool

/-- From `expr.rs` line 515: the `Binary` arm for `TokenType::BangEqual`;
Rust `left != right` is the negation of `PartialEq::eq`. -/
def evalBangEqual (l r : LiteralValue) : Option LiteralValue :=
  (LiteralValue.eq l r).map (fun b => LiteralValue.from_bool (!b))

/-! ### Call evaluation (`expr.rs` lines 366-396, `Expr::evaluvate`, `Expr::Call` arm)
and parameter binding (`interpreter.rs` lines 77-86, `func_impl`). -/

/-- The exact arity-mismatch message built at `expr.rs` lines 378-384
(including the source's spelling `expexted`). -/
def arityErrMsg (name : String) (arity got : Nat) : String :=
  "Callable '" ++ name ++ "' expexted " ++ toString arity ++
    " arguments and got " ++ toString got ++ " arguments"

/-- The not-callable message built at `expr.rs` line 395. -/
def notCallableMsg (t : String) : String := t ++ " is not callable"

/-- From `expr.rs` lines 366-396: evaluation of `Expr::Call` after the callee
has been evaluated to `callable`. `args` are the unevaluated argument
expressions (kept abstract as `α`), `evalArg` is argument evaluation and
`applyFn` dispatches the opaque `fn` code of a `Callable` — invoking it is
what "entering the body" means. Mirrors the source order: the arity check
happens before any argument is evaluated, and the `fun` is applied only
after all arguments evaluated successfully. The argument loop
`for arg in args { args_val.push(arg.evaluvate(...)?) }` (expr.rs lines
387-390) is `evalArgsLoop`. -/
def evalArgsLoop {α : Type} (evalArg : α → Except String LiteralValue) :
    List α → Except String (List LiteralValue)
  | [] => .ok []
  | a :: rest =>
      match evalArg a with
      | .error e => .error e
      | .ok v =>
          match evalArgsLoop evalArg rest with
          | .error e => .error e
          | .ok vs => .ok (v :: vs)

/-- The `Expr::Call` match on the evaluated callee (expr.rs lines 373-396). -/
def evalCallArm {α : Type} (callable : LiteralValue) (args : List α)
    (evalArg : α → Except String LiteralValue)
    (applyFn : Nat → List LiteralValue → LiteralValue) :
    Except String LiteralValue :=
  match callable with
  | .Callable name arity fn =>
      if args.length ≠ arity then
        .error (arityErrMsg name arity args.length)
      else do
        let argsVal ← evalArgsLoop evalArg args
        .ok (applyFn fn argsVal)
  | e => .error (notCallableMsg e.to_type)

/-- Association-list insert; under `List.lookup` this is observationally the
`HashMap::insert` overwrite-or-add. -/
def mapInsert (k : String) (v : LiteralValue)
    (m : List (String × LiteralValue)) : List (String × LiteralValue) :=
  (k, v) :: m

/-- From `interpreter.rs` lines 81-86 (`func_impl`): the parameter-binding
loop `for (i, arg) in args.iter().enumerate() { ... define(params[i], arg) }`,
threading the index explicitly. `none` models the panic of an out-of-bounds
`params[i]` access (unreachable when the arity check passed). -/
def bindParamsAux (params : List String) :
    Nat → List LiteralValue → List (String × LiteralValue) →
    Option (List (String × LiteralValue))
  | _, [], env => some env
  | i, a :: rest, env =>
      match params[i]? with
      | none => none
      | some p => bindParamsAux params (i + 1) rest (mapInsert p a env)

/-- Entry point of the binding loop (index starts at 0). -/
def bindParams (params : List String) (args : List LiteralValue)
    (env : List (String × LiteralValue)) :
    Option (List (String × LiteralValue)) :=
  bindParamsAux params 0 args env

/-! ### Resolver (`resolver.rs`) -/

/-- Models the Rust range expression `a..b`: iterates `a, a+1, ..., b-1`,
and is empty whenever `b ≤ a` (Nat subtraction mirrors release-mode
wrapping only in that the resulting range is empty either way). -/
def rustRange (a b : Nat) : List Nat := List.range' a (b - a)

/-- One scope of the resolver: `HashMap<String, bool>`
(`false` = declared-uninitialized, `true` = defined), as an association
list. The scope stack has the innermost scope LAST (`Vec::last`). -/
abbrev RScope := List (String × Bool)

/-- From `resolver.rs` lines 258-268 (`Resolver::resolve_local`).
Returns the distance that the loop records against the expression node via
`self.interpreter.resolve(expr, size - 1 - i)`, or `none` when the loop
records nothing. The source loop is `for i in (size - 1)..0`, which is an
ascending Rust range. -/
def Resolver.resolve_local (scopes : List RScope) (name : String) : Option Nat :=
  let size := scopes.length
  (rustRange (size - 1) 0).findSome? fun i =>
    if ((scopes.getD i []).lookup name).isSome then some (size - 1 - i) else none

/-- Outcome of `Resolver::resolve_expr_var`: a panic, a resolution error,
or falling through to `resolve_local` (which returns `Ok(())`). -/
inductive ResolveOutcome where
  | panicked
  | errored (msg : String)
  | ok
deriving DecidableEq

/-- From `resolver.rs` lines 238-256 (`Resolver::resolve_expr_var`), for a
`Expr::Variable { name }` node. The Rust condition is
`!self.scopes.is_empty() && !(*self.scopes.last()...get(&name.lexeme).unwrap())`:
when the stack is empty the `&&` short-circuits and control reaches
`resolve_local`; otherwise the `Option` returned by `get` is `unwrap`ped,
which panics when the innermost scope has no entry for the name. -/
def Resolver.resolve_expr_var (scopes : List RScope) (name : String) :
    ResolveOutcome :=
  match scopes.getLast? with
  | none => ResolveOutcome.ok
  | some innermost =>
      match innermost.lookup name with
      | none => ResolveOutcome.panicked
      | some false =>
          ResolveOutcome.errored "Cannot read local variable in its own initialization"
      | some true => ResolveOutcome.ok

/-! ### Environment (`environments.rs`)

`Environment` is modelled as it is written in the source: a `values` map,
an optional enclosing environment, and — important for claim C6 — a
`globals` map OWNED BY EACH `Environment` value (`Environment::new`
populates a fresh `globals` for every frame, see lines 6-11 and 35-42). -/

inductive Environment where
  | mk (values : List (String × LiteralValue))
       (enclosing : Option Environment)
       (globals : List (String × LiteralValue))

/-- Field accessor for `values`. -/
def Environment.values : Environment → List (String × LiteralValue)
  | .mk v _ _ => v

/-- Field accessor for `enclosing`. -/
def Environment.enclosing : Environment → Option Environment
  | .mk _ e _ => e

/-- Field accessor for `globals`. -/
def Environment.globals : Environment → List (String × LiteralValue)
  | .mk _ _ g => g

/-- From `environments.rs` lines 22-33 (`get_globals`): the globals map a
fresh `Environment` starts with (the `clock` builtin; its `fn` payload is
opaque, code 0). -/
def stdGlobals : List (String × LiteralValue) :=
  [("clock", LiteralValue.Callable "clock" 0 0)]

/-- From `environments.rs` lines 35-42 (`Environment::new`). -/
def Environment.new : Environment := .mk [] none stdGlobals

/-- From `environments.rs` lines 59-77 (`Environment::assign`).
`none` distance inserts into THIS frame's own `globals` map and returns
`true`; distance `0` inserts into this frame's `values`; a positive
distance recurses into the enclosing frame, and the outer `none` result
models the panic
`"Tried to assign a var that was defined deeper than the current env depth"`
when no enclosing frame exists. The `Bool` is the Rust return value. -/
def Environment.assign : Environment → String → LiteralValue → Option Nat →
    Option (Environment × Bool)
  | .mk vals enc glob, name, v, none =>
      some (.mk vals enc (mapInsert name v glob), true)
  | .mk vals enc glob, name, v, some 0 =>
      some (.mk (mapInsert name v vals) enc glob, true)
  | .mk vals enc glob, name, v, some (d + 1) =>
      match enc with
      | none => none
      | some p =>
          (p.assign name v (some d)).map fun r => (.mk vals (some r.1) glob, r.2)

/-- From `environments.rs` lines 80-96 (`Environment::get`). The outer
`Option` is the panic
(`"Tried to resolve a var that was defined deeper than the current env depth"`),
the inner `Option` is the map lookup result returned by the source. -/
def Environment.get : Environment → String → Option Nat →
    Option (Option LiteralValue)
  | .mk _ _ glob, name, none => some (glob.lookup name)
  | .mk vals _ _, name, some 0 => some (vals.lookup name)
  | .mk _ enc _, name, some (d + 1) =>
      match enc with
      | none => none
      | some p => p.get name (some d)

/-- Walks `d` enclosing links (the frame "at distance d" from `e`);
`none` when the chain is shorter. Spec vocabulary for stating C6. -/
def Environment.frameAt : Environment → Nat → Option Environment
  | e, 0 => some e
  | e, d + 1 =>
      match e.enclosing with
      | none => none
      | some p => p.frameAt d

/-! ### Shared frames for closures (`interpreter.rs`)

`Rc<RefCell<Environment>>` aliasing is what claim C2 is about, so here
frames live in an arena (`Heap`): a frame handle is an index, an `Rc`
clone of a handle is the same index, and `enclosing` is a parent index.
The per-frame fields are exactly those of `Environment`. -/

structure Frame where
  values : List (String × LiteralValue)
  enclosing : Option Nat
  globals : List (String × LiteralValue)

abbrev Heap := List Frame

/-- The distance-directed part of `Environment::get` (environments.rs
lines 80-96) lifted to arena handles: follow `enclosing` indices for the
given hop count, then look the name up in that frame's `values`. `none`
models the panic (chain exhausted, or a dangling handle — the latter
cannot arise from `Rc`). -/
def Heap.getDist (h : Heap) (name : String) : Nat → Nat → Option (Option LiteralValue)
  | 0, fid =>
      match h[fid]? with
      | none => none
      | some f => some (f.values.lookup name)
  | d + 1, fid =>
      match h[fid]? with
      | none => none
      | some f =>
          match f.enclosing with
          | none => none
          | some p => Heap.getDist h name d p

/-- `Environment::get` lifted to arena handles (`none` distance reads the
frame's own `globals`, as in the source). -/
def Heap.get (h : Heap) (fid : Nat) (name : String) :
    Option Nat → Option (Option LiteralValue)
  | none =>
      match h[fid]? with
      | none => none
      | some f => some (f.globals.lookup name)
  | some d => Heap.getDist h name d fid

/-- The distance-directed part of `Environment::assign` (environments.rs
lines 59-77) lifted to arena handles: writing through a handle updates the
frame in place, so every other holder of the same handle sees the write. -/
def Heap.assignDist (h : Heap) (name : String) (v : LiteralValue) :
    Nat → Nat → Option (Heap × Bool)
  | 0, fid =>
      match h[fid]? with
      | none => none
      | some f => some (h.set fid { f with values := mapInsert name v f.values }, true)
  | d + 1, fid =>
      match h[fid]? with
      | none => none
      | some f =>
          match f.enclosing with
          | none => none
          | some p => Heap.assignDist h name v d p

/-- `Environment::assign` lifted to arena handles. -/
def Heap.assign (h : Heap) (fid : Nat) (name : String) (v : LiteralValue) :
    Option Nat → Option (Heap × Bool)
  | none =>
      match h[fid]? with
      | none => none
      | some f => some (h.set fid { f with globals := mapInsert name v f.globals }, true)
  | some d => Heap.assignDist h name v d fid

/-- From `interpreter.rs` lines 29-38 (`Interpreter::for_closure`): at
invocation a fresh frame is allocated whose `enclosing` is the frame the
callable captured at declaration time. Returns the extended heap and the
handle of the new frame. -/
def Interpreter.for_closure (h : Heap) (captured : Nat) : Heap × Nat :=
  (h ++ [⟨[], some captured, stdGlobals⟩], h.length)

/-! ### Statement execution and return propagation (`interpreter.rs`)

The fragment below embeds `Interpreter::interpret` (interpreter.rs lines
52-172) and `func_impl` (lines 77-100) for the statement forms claim C3 is
about: `Return`, `Print`, `Expression`, `Block` and `WhileLoop`. Expression
evaluation is restricted to literals — the claim is purely about the flow
of the return signal through statements, and no other expression form
occurs in it. The environment chain manipulated by the `Block` arm is
likewise irrelevant to the return signal (the signal lives in
`self.specials`, which the `Block` arm leaves untouched) and is omitted;
the `retSlot` field below is the `specials` entry `"return"` and `output`
collects what `Stmt::Print` writes with `println!`. -/

/-- Expressions appearing in the C3 fragment (literals only). -/
inductive CExpr where
  | lit (v : LiteralValue)

/-- The `Expr::Literal` arm of `Expr::evaluvate` (expr.rs line 434). -/
def CExpr.eval : CExpr → LiteralValue
  | .lit v => v

/-- Statement forms of `stmt.rs` used by claim C3 (same field shapes). -/
inductive CStmt where
  | ret (value : Option CExpr)
  | print (expression : CExpr)
  | expression (expression : CExpr)
  | block (stmts : List CStmt)
  | whileLoop (cond : CExpr) (body : CStmt)

/-- Interpreter state for the C3 fragment: `retSlot` is
`specials.get("return")`, `output` the lines printed so far. -/
structure IState where
  retSlot : Option LiteralValue
  output : List String
deriving DecidableEq

/-- Rendering used by `Stmt::Print` (`LiteralValue::to_string`,
expr.rs lines 74-87). -/
def LiteralValue.render : LiteralValue → String
  | .Number n => toString n
  | .StringValue s => "\"" ++ s ++ "\""
  | .True => "true"
  | .False => "false"
  | .Nil => "nil"
  | .Callable name arity _ => "<fn " ++ name ++ ">/" ++ toString arity

mutual

/-- One statement of `Interpreter::interpret`'s `match` (interpreter.rs):
`Stmt::Return` (lines 55-64) evaluates the operand (`Nil` when absent) and
stores it in the return slot; `Stmt::Print` (lines 128-132) prints;
`Stmt::Expression` (lines 123-126) evaluates and discards; `Stmt::Block`
(lines 144-155) runs the inner statements through `interpret`;
`Stmt::WhileLoop` (lines 114-121) re-evaluates the condition via
`is_truthy` before each iteration and runs the body through `interpret` —
note that, as in the source, neither the block nor the loop consults the
return slot. `none` is fuel exhaustion (the source loop may not terminate)
or a panic inside `is_truthy`. -/
def runStmt : Nat → CStmt → IState → Option IState
  | _, .ret value, st =>
      let v := match value with
               | some e => e.eval
               | none => LiteralValue.Nil
      some { st with retSlot := some v }
  | _, .print e, st =>
      some { st with output := st.output ++ [(CExpr.eval e).render] }
  | _, .expression _, st => some st
  | fuel + 1, .block stmts, st => runStmts fuel stmts st
  | 0, .block _, _ => none
  | fuel + 1, .whileLoop cond body, st =>
      match (CExpr.eval cond).is_truthy with
      | none => none
      | some flag =>
          if flag = LiteralValue.True then
            match runStmt fuel body st with
            | none => none
            | some st1 => runStmt fuel (.whileLoop cond body) st1
          else
            some st
  | 0, .whileLoop _ _, _ => none
termination_by fuel s _ => (fuel, sizeOf s)
decreasing_by
  all_goals simp_wf
  all_goals omega

/-- The statement loop of `Interpreter::interpret` (interpreter.rs lines
52-172): runs the statements in order; a `?`-propagated error or panic
(`none`) aborts. No check of the return slot happens between statements. -/
def runStmts : Nat → List CStmt → IState → Option IState
  | _, [], st => some st
  | fuel, s :: rest, st =>
      match runStmt fuel s st with
      | none => none
      | some st1 => runStmts fuel rest st1
termination_by fuel l _ => (fuel, sizeOf l)
decreasing_by
  all_goals simp_wf
  all_goals omega

end

/-- From `interpreter.rs` lines 88-99 (`func_impl`): run the body
statements one at a time through `interpret` and RETURN as soon as the
`"return"` entry of `specials` is set after a statement; `Nil` when the
body runs out. A fresh call starts from `initCallState`. -/
def funcImpl : Nat → List CStmt → IState → Option (LiteralValue × IState)
  | _, [], st => some (LiteralValue.Nil, st)
  | fuel, s :: rest, st =>
      match runStmts fuel [s] st with
      | none => none
      | some st1 =>
          match st1.retSlot with
          | some val => some (val, st1)
          | none => funcImpl fuel rest st1

/-- The state a call starts in: `Interpreter::for_closure` builds a fresh
`specials` environment (no `"return"` entry) — interpreter.rs lines 29-38. -/
def initCallState : IState := ⟨none, []⟩

/-! ### Tokens (`scanner.rs` lines 305-380) -/

/-- From `scanner.rs` lines 305-351 (`enum TokenType`). -/
inductive TokenType where
  | LeftParen | RightParen | LeftBrace | RightBrace
  | Comma | Dot | Plus | Minus | Semicolon | Slash | Star
  | Bang | BangEqual | Greater | GreaterEqual | Less | LessEqual
  | Equal | EqualEqual
  | Identifier | String_ | Number
  | And | Or | True | False | Class | If | Else | Func | For
  | While | Nil | Print | Return | Super | This | Var
  | Eof
deriving DecidableEq

/-- From `scanner.rs` lines 359-364: the scanner's own `LiteralValue`
(token payload), distinct from the runtime `LiteralValue` of `expr.rs`. -/
inductive ScanLiteralValue where
  | FloatValue (x : ℚ)
  | StringValue (s : String)
deriving DecidableEq

/-- From `scanner.rs` lines 366-373 (`struct Token`). -/
structure Token where
  token_type : TokenType
  lexeme : String
  literal : Option ScanLiteralValue
  line_number : Nat
deriving DecidableEq

/-! ### Expression AST (`expr.rs` lines 185-226)

The `AnonFunc` variant is omitted: `parser.rs` has no production that
builds it (and it would drag the whole statement type into a mutual
inductive); no claim mentions it. -/

inductive Expr where
  | Binary (left : Expr) (operator : Token) (right : Expr)
  | Logical (left : Expr) (operator : Token) (right : Expr)
  | Grouping (expression : Expr)
  | Literal (literal : LiteralValue)
  | Unary (operator : Token) (right : Expr)
  | Variable (name : Token)
  | Assign (name : Token) (value : Expr)
  | Call (callee : Expr) (paren : Token) (args : List Expr)

/-- From `expr.rs` lines 7-12 (`unwrap_as_f64`); `none` is the panic. -/
def unwrap_as_f64 : Option ScanLiteralValue → Option ℚ
  | some (.FloatValue x) => some x
  | _ => none

/-- From `expr.rs` lines 15-20 (`unwrap_as_string`); `none` is the panic. -/
def unwrap_as_string : Option ScanLiteralValue → Option String
  | some (.StringValue s) => some s
  | _ => none

/-- From `expr.rs` lines 104-113 (`LiteralValue::from_token`); `none` is
the panic of the wildcard arm or of the unwrap helpers. -/
def LiteralValue.from_token (t : Token) : Option LiteralValue :=
  match t.token_type with
  | .Number => (unwrap_as_f64 t.literal).map LiteralValue.Number
  | .String_ => (unwrap_as_string t.literal).map LiteralValue.StringValue
  | .True => some .True
  | .False => some .False
  | .Nil => some .Nil
  | _ => none

/-! ### Parser (`parser.rs`)

The parser is embedded with its `tokens`/`current` state. Failures are:
`err msg` for a `Result::Err` the source produces, `panicked` for an
out-of-bounds token index (`self.tokens[i]`), and `fuelOut` for exhaustion
of the fuel that stands in for the source's unbounded recursion — every
call below passes one unit less, so any fuel larger than the total number
of parser steps (amply bounded by token count for the inputs considered)
is never exhausted. -/

inductive PFail where
  | err (msg : String)
  | panicked
  | fuelOut
deriving DecidableEq

/-- Parser state: `struct Parser` of parser.rs lines 8-11. -/
structure PState where
  tokens : List Token
  current : Nat
deriving DecidableEq

/-- From `parser.rs` lines 521-524 (`Parser::previous`); the index may be
out of bounds in Rust, hence the failure case. -/
def PState.previous (st : PState) : Except PFail Token :=
  match st.tokens[st.current - 1]? with
  | none => .error .panicked
  | some t => .ok t

/-- From `parser.rs` lines 531-534 (`Parser::peek`). -/
def PState.peek (st : PState) : Except PFail Token :=
  match st.tokens[st.current]? with
  | none => .error .panicked
  | some t => .ok t

/-- From `parser.rs` lines 526-529 (`Parser::is_at_end`). -/
def PState.is_at_end (st : PState) : Except PFail Bool := do
  let t ← st.peek
  pure (decide (t.token_type = TokenType.Eof))

/-- From `parser.rs` lines 567-573 (`Parser::advance`). -/
def PState.advance (st : PState) : Except PFail (Token × PState) := do
  let e ← st.is_at_end
  let st1 := if e then st else { st with current := st.current + 1 }
  let t ← st1.previous
  pure (t, st1)

/-- From `parser.rs` lines 545-555 (`Parser::match_token`). -/
def Parser.match_token (tt : TokenType) (st : PState) :
    Except PFail (Bool × PState) := do
  let e ← st.is_at_end
  if e then pure (false, st)
  else do
    let t ← st.peek
    if t.token_type = tt then do
      let (_, st1) ← st.advance
      pure (true, st1)
    else
      pure (false, st)

/-- From `parser.rs` lines 557-565 (`Parser::match_tokens`). -/
def Parser.match_tokens : List TokenType → PState → Except PFail (Bool × PState)
  | [], st => pure (false, st)
  | t :: rest, st => do
      let (m, st1) ← Parser.match_token t st
      if m then pure (true, st1) else Parser.match_tokens rest st1

/-- From `parser.rs` lines 536-543 (`Parser::check`). -/
def Parser.check (tt : TokenType) (st : PState) : Except PFail Bool := do
  let e ← st.is_at_end
  if e then pure false
  else do
    let t ← st.peek
    pure (decide (t.token_type = tt))

/-- From `parser.rs` lines 509-519 (`Parser::consume`). -/
def Parser.consume (tt : TokenType) (msg : String) (st : PState) :
    Except PFail (Token × PState) := do
  let token ← st.peek
  if token.token_type = tt then do
    let (_, st1) ← st.advance
    let t ← st1.previous
    pure (t, st1)
  else
    .error (.err msg)

mutual

/-- From `parser.rs` lines 293-295 (`Parser::expression`). -/
def Parser.expression : Nat → PState → Except PFail (Expr × PState)
  | 0, _ => .error .fuelOut
  | fuel + 1, st => Parser.assignment fuel st

/-- From `parser.rs` lines 298-320 (`Parser::assignment`). -/
def Parser.assignment : Nat → PState → Except PFail (Expr × PState)
  | 0, _ => .error .fuelOut
  | fuel + 1, st => do
      let (lhs, st1) ← Parser.or fuel st
      let (m, st2) ← Parser.match_token TokenType.Equal st1
      if m then do
        let (rhs, st3) ← Parser.assignment fuel st2
        match lhs with
        | Expr.Variable name => pure (Expr.Assign name rhs, st3)
        | _ => .error (.err "Invalid assignment target")
      else
        pure (lhs, st2)

/-- From `parser.rs` lines 323-336 (`Parser::or`). NOTE: the source uses a
single `if self.match_token(Or)`, not a loop, so at most one `or` operator
is consumed per invocation (claim C7). -/
def Parser.or : Nat → PState → Except PFail (Expr × PState)
  | 0, _ => .error .fuelOut
  | fuel + 1, st => do
      let (lhs, st1) ← Parser.and fuel st
      let (m, st2) ← Parser.match_token TokenType.Or st1
      if m then do
        let op ← st2.previous
        let (rhs, st3) ← Parser.and fuel st2
        pure (Expr.Logical lhs op rhs, st3)
      else
        pure (lhs, st2)

/-- From `parser.rs` lines 339-352 (`Parser::and`). Also a single `if`,
not a loop. -/
def Parser.and : Nat → PState → Except PFail (Expr × PState)
  | 0, _ => .error .fuelOut
  | fuel + 1, st => do
      let (lhs, st1) ← Parser.equality fuel st
      let (m, st2) ← Parser.match_token TokenType.And st1
      if m then do
        let op ← st2.previous
        let (rhs, st3) ← Parser.equality fuel st2
        pure (Expr.Logical lhs op rhs, st3)
      else
        pure (lhs, st2)

/-- From `parser.rs` lines 355-367 (`Parser::equality`): a `while` loop
over `{BangEqual, EqualEqual}` building a left-leaning tree; the loop is
`Parser.equalityLoop`. -/
def Parser.equality : Nat → PState → Except PFail (Expr × PState)
  | 0, _ => .error .fuelOut
  | fuel + 1, st => do
      let (lhs, st1) ← Parser.comparision fuel st
      Parser.equalityLoop fuel lhs st1

/-- The `while self.match_tokens(vec![BangEqual, EqualEqual])` loop of
`Parser::equality`. -/
def Parser.equalityLoop : Nat → Expr → PState → Except PFail (Expr × PState)
  | 0, _, _ => .error .fuelOut
  | fuel + 1, lhs, st => do
      let (m, st1) ← Parser.match_tokens [TokenType.BangEqual, TokenType.EqualEqual] st
      if m then do
        let op ← st1.previous
        let (rhs, st2) ← Parser.comparision fuel st1
        Parser.equalityLoop fuel (Expr.Binary lhs op rhs) st2
      else
        pure (lhs, st1)

/-- From `parser.rs` lines 370-384 (`Parser::comparision`, source
spelling): a `while` loop over `{Greater, GreaterEqual, LessEqual, Less}`. -/
def Parser.comparision : Nat → PState → Except PFail (Expr × PState)
  | 0, _ => .error .fuelOut
  | fuel + 1, st => do
      let (lhs, st1) ← Parser.term fuel st
      Parser.comparisionLoop fuel lhs st1

/-- The `while` loop of `Parser::comparision`. -/
def Parser.comparisionLoop : Nat → Expr → PState → Except PFail (Expr × PState)
  | 0, _, _ => .error .fuelOut
  | fuel + 1, lhs, st => do
      let (m, st1) ← Parser.match_tokens
        [TokenType.Greater, TokenType.GreaterEqual, TokenType.LessEqual, TokenType.Less] st
      if m then do
        let op ← st1.previous
        let (rhs, st2) ← Parser.term fuel st1
        Parser.comparisionLoop fuel (Expr.Binary lhs op rhs) st2
      else
        pure (lhs, st1)

/-- From `parser.rs` lines 387-401 (`Parser::term`): a `while` loop over
`{Minus, Plus}`. -/
def Parser.term : Nat → PState → Except PFail (Expr × PState)
  | 0, _ => .error .fuelOut
  | fuel + 1, st => do
      let (lhs, st1) ← Parser.factor fuel st
      Parser.termLoop fuel lhs st1

/-- The `while` loop of `Parser::term`. -/
def Parser.termLoop : Nat → Expr → PState → Except PFail (Expr × PState)
  | 0, _, _ => .error .fuelOut
  | fuel + 1, lhs, st => do
      let (m, st1) ← Parser.match_tokens [TokenType.Minus, TokenType.Plus] st
      if m then do
        let op ← st1.previous
        let (rhs, st2) ← Parser.factor fuel st1
        Parser.termLoop fuel (Expr.Binary lhs op rhs) st2
      else
        pure (lhs, st1)

/-- From `parser.rs` lines 404-418 (`Parser::factor`): a `while` loop over
`{Slash, Star}`. -/
def Parser.factor : Nat → PState → Except PFail (Expr × PState)
  | 0, _ => .error .fuelOut
  | fuel + 1, st => do
      let (lhs, st1) ← Parser.unary fuel st
      Parser.factorLoop fuel lhs st1

/-- The `while` loop of `Parser::factor`. -/
def Parser.factorLoop : Nat → Expr → PState → Except PFail (Expr × PState)
  | 0, _, _ => .error .fuelOut
  | fuel + 1, lhs, st => do
      let (m, st1) ← Parser.match_tokens [TokenType.Slash, TokenType.Star] st
      if m then do
        let op ← st1.previous
        let (rhs, st2) ← Parser.unary fuel st1
        Parser.factorLoop fuel (Expr.Binary lhs op rhs) st2
      else
        pure (lhs, st1)

/-- From `parser.rs` lines 421-431 (`Parser::unary`). -/
def Parser.unary : Nat → PState → Except PFail (Expr × PState)
  | 0, _ => .error .fuelOut
  | fuel + 1, st => do
      let (m, st1) ← Parser.match_tokens [TokenType.Minus, TokenType.Bang] st
      if m then do
        let op ← st1.previous
        let (rhs, st2) ← Parser.unary fuel st1
        pure (Expr.Unary op rhs, st2)
      else
        Parser.call fuel st1

/-- From `parser.rs` lines 434-444 (`Parser::call`); the `loop` is
`Parser.callLoop`. -/
def Parser.call : Nat → PState → Except PFail (Expr × PState)
  | 0, _ => .error .fuelOut
  | fuel + 1, st => do
      let (e, st1) ← Parser.primary fuel st
      Parser.callLoop fuel e st1

/-- The `loop { if match_token(LeftParen) ... else break }` of
`Parser::call`. -/
def Parser.callLoop : Nat → Expr → PState → Except PFail (Expr × PState)
  | 0, _, _ => .error .fuelOut
  | fuel + 1, e, st => do
      let (m, st1) ← Parser.match_token TokenType.LeftParen st
      if m then do
        let (e2, st2) ← Parser.finish_call fuel e st1
        Parser.callLoop fuel e2 st2
      else
        pure (e, st1)

/-- From `parser.rs` lines 447-475 (`Parser::finish_call`); the argument
loop is `Parser.argsLoop`. -/
def Parser.finish_call : Nat → Expr → PState → Except PFail (Expr × PState)
  | 0, _, _ => .error .fuelOut
  | fuel + 1, callee, st => do
      let chk ← Parser.check TokenType.RightParen st
      let (args, st1) ←
        if chk then pure (([] : List Expr), st) else Parser.argsLoop fuel [] st
      let (paren, st2) ← Parser.consume TokenType.RightParen "Expexted ')' after arguments" st1
      pure (Expr.Call callee paren args, st2)

/-- The argument loop of `Parser::finish_call` (parser.rs lines 452-466):
parse an argument, error past 255, push, continue on a comma. -/
def Parser.argsLoop : Nat → List Expr → PState → Except PFail (List Expr × PState)
  | 0, _, _ => .error .fuelOut
  | fuel + 1, args, st => do
      let (arg, st1) ← Parser.expression fuel st
      if args.length ≥ 255 then do
        let t ← st1.peek
        .error (.err ("Line " ++ toString t.line_number ++ ": Cannot have more than 255 args"))
      else do
        let args2 := args ++ [arg]
        let (m, st2) ← Parser.match_token TokenType.Comma st1
        if m then Parser.argsLoop fuel args2 st2 else pure (args2, st2)

/-- From `parser.rs` lines 478-507 (`Parser::primary`). The wildcard arm's
message carries the token's debug rendering in the source; the message text
is abbreviated here (no claim depends on it). -/
def Parser.primary : Nat → PState → Except PFail (Expr × PState)
  | 0, _ => .error .fuelOut
  | fuel + 1, st => do
      let token ← st.peek
      match token.token_type with
      | .LeftParen => do
          let (_, st1) ← st.advance
          let (e, st2) ← Parser.expression fuel st1
          let (_, st3) ← Parser.consume TokenType.RightParen "Expected ')'" st2
          pure (Expr.Grouping e, st3)
      | .Number | .String_ | .True | .False | .Nil =>
          (match LiteralValue.from_token token with
          | none => .error .panicked
          | some lit => do
              let (_, st1) ← st.advance
              pure (Expr.Literal lit, st1))
      | .Identifier => do
          let (_, st1) ← st.advance
          pure (Expr.Variable token, st1)
      | _ => .error (.err "is not a primary")

end

/-! ### Scanner (`scanner.rs`)

The scanner walks `source` (a char list — the source indexes
`as_bytes()`, and all behaviour of interest is ASCII) with the indices
`start`, `current` and the counter `line` of `struct Scanner`. Loops carry
fuel; the entry point passes `source.length + 1` at the top and each inner
loop consumes at least one character per iteration, so fuel is never
exhausted on the inputs considered below. The `Option` layer is the panic
(`none`): the only reachable panic is the out-of-bounds byte index in
`peek_next` (see `scanPeekNext`). -/

/-- From `scanner.rs` lines 16-18 (`is_digit`). -/
def is_digit (ch : Char) : Bool := ch.isDigit

/-- From `scanner.rs` lines 20-22 (`is_alpha`). -/
def is_alpha (ch : Char) : Bool := ch.isAlpha || ch = '_'

/-- From `scanner.rs` lines 24-26 (`is_alpha_num`). -/
def is_alpha_num (ch : Char) : Bool := is_alpha ch || is_digit ch

/-- From `scanner.rs` lines 36-53: the keyword table. -/
def keywords : List (String × TokenType) :=
  [("and", .And), ("or", .Or), ("class", .Class), ("else", .Else),
   ("if", .If), ("true", .True), ("false", .False), ("for", .For),
   ("nil", .Nil), ("print", .Print), ("return", .Return), ("func", .Func),
   ("this", .This), ("while", .While), ("super", .Super), ("var", .Var)]

/-- The NUL sentinel `'\0'` the scanner uses at end of input. -/
def nulChar : Char := Char.ofNat 0

/-- From `scanner.rs` lines 262-267 (`Scanner::peek`): the character at
`current`, or NUL at end. -/
def scanPeek (source : List Char) (current : Nat) : Char :=
  source.getD current nulChar

/-- From `scanner.rs` lines 270-276 (`Scanner::peek_next`). The source
guard is `self.current + 1 > self.source.len()` — when `current + 1` is
EQUAL to the length the guard does not fire and
`self.source.as_bytes()[self.current + 1]` indexes out of bounds, which
panics: that is the `none` case here. -/
def scanPeekNext (source : List Char) (current : Nat) : Option Char :=
  if source.length < current + 1 then some nulChar
  else source[current + 1]?

/-- From `scanner.rs` lines 295-302 (`Scanner::advance`): returns the
consumed character and the new `current`. -/
def scanAdvance (source : List Char) (current : Nat) : Char × Nat :=
  if source.length ≤ current then (nulChar, current)
  else (source.getD current nulChar, current + 1)

/-- From `scanner.rs` lines 228-238 (`Scanner::char_match`). -/
def charMatch (source : List Char) (current : Nat) (c : Char) : Bool × Nat :=
  if source.length ≤ current then (false, current)
  else if source.getD current nulChar ≠ c then (false, current)
  else (true, current + 1)

/-- The slice `self.source[a..b]` as a char list. -/
def sliceChars (source : List Char) (a b : Nat) : List Char :=
  (source.drop a).take (b - a)

/-- The comment loop of `scan_token` (`scanner.rs` lines 147-153):
`loop { if peek == newline or at end, break; advance }`. -/
def skipComment : Nat → List Char → Nat → Option Nat
  | 0, _, _ => none
  | fuel + 1, source, current =>
      if scanPeek source current = '\n' then some current
      else if source.length ≤ current then some current
      else skipComment fuel source (current + 1)

/-- The loop of `Scanner::string_literal` (`scanner.rs` lines 243-248):
advance while not at end and not at a closing quote, counting newlines. -/
def stringLoop : Nat → List Char → Nat → Nat → Option (Nat × Nat)
  | 0, _, _, _ => none
  | fuel + 1, source, current, line =>
      if current < source.length ∧ scanPeek source current ≠ '"' then
        let line1 := if scanPeek source current = '\n' then line + 1 else line
        stringLoop fuel source (current + 1) line1
      else some (current, line)

/-- The digit loops of `Scanner::number` (`scanner.rs` lines 201-203 and
209-211): `while is_digit(peek) { advance }`. -/
def digitsLoop : Nat → List Char → Nat → Option Nat
  | 0, _, _ => none
  | fuel + 1, source, current =>
      if is_digit (scanPeek source current) then digitsLoop fuel source (current + 1)
      else some current

/-- The loop of `Scanner::identifier` (`scanner.rs` lines 182-184):
`while is_alpha_num(peek) { advance }`. -/
def identLoop : Nat → List Char → Nat → Option Nat
  | 0, _, _ => none
  | fuel + 1, source, current =>
      if is_alpha_num (scanPeek source current) then identLoop fuel source (current + 1)
      else some current

/-- Numeric value of a digit run. -/
def digitsVal (ds : List Char) : Nat :=
  ds.foldl (fun acc d => acc * 10 + (d.toNat - ('0').toNat)) 0

/-- Models `s.parse::<f64>()` (`scanner.rs` line 217) on the slices the
number scanner produces — always of the shape `digits` or
`digits.digits` — with exact rational arithmetic in place of `f64`
rounding (no claim depends on rounding). Anything else is a parse
failure (`none`), matching the `Err(_)` arm. -/
def parse_f64 (s : List Char) : Option ℚ :=
  let intPart := s.takeWhile is_digit
  let rest := s.dropWhile is_digit
  if intPart.isEmpty then none
  else
    match rest with
    | [] => some ((digitsVal intPart : ℚ))
    | '.' :: frac =>
        if frac ≠ [] ∧ frac.all is_digit then
          some ((digitsVal intPart : ℚ) + (digitsVal frac : ℚ) / ((10 : ℚ) ^ frac.length))
        else none
    | _ => none

/-- Result of one `scan_token` step: the new `current` and `line`, the
token pushed by `add_token`/`add_token_lit` (if any) and the error
returned (if any). -/
structure TokRes where
  current : Nat
  line : Nat
  tok : Option Token
  err : Option String
deriving DecidableEq

/-- `add_token` (`scanner.rs` lines 279-292): push a token whose lexeme is
`source[start..current]`. -/
def addTok (tt : TokenType) (lit : Option ScanLiteralValue)
    (source : List Char) (start current line : Nat) : TokRes :=
  ⟨current, line, some ⟨tt, String.mk (sliceChars source start current), lit, line⟩, none⟩

/-- From `scanner.rs` lines 199-225 (`Scanner::number`). `start` points at
the first digit (already consumed), `current` just past it. The
`peek_next` call inside `if peek == '.' && is_digit(peek_next)` is the
reachable panic (`none`). -/
def scanNumber (fuel : Nat) (source : List Char) (start current line : Nat) :
    Option TokRes := do
  let c1 ← digitsLoop fuel source current
  let c2 ←
    if scanPeek source c1 = '.' then
      match scanPeekNext source c1 with
      | none => none
      | some nxt =>
          if is_digit nxt then digitsLoop fuel source (c1 + 1)
          else some c1
    else some c1
  let s := sliceChars source start c2
  match parse_f64 s with
  | some v => some (addTok .Number (some (.FloatValue v)) source start c2 line)
  | none => some ⟨c2, line, none, some ("Failed to parse number at line " ++ toString line)⟩

/-- From `scanner.rs` lines 180-196 (`Scanner::identifier`). -/
def scanIdent (fuel : Nat) (source : List Char) (start current line : Nat) :
    Option TokRes := do
  let c ← identLoop fuel source current
  let sub := String.mk (sliceChars source start c)
  let tt := match keywords.lookup sub with
            | some e => e
            | none => TokenType.Identifier
  some (addTok tt none source start c line)

/-- From `scanner.rs` lines 241-259 (`Scanner::string_literal`). Note the
source advances once after the loop and only then tests `is_at_end`, so a
closing quote that is the last character of the input is reported as an
unterminated string — modelled faithfully. -/
def scanString (fuel : Nat) (source : List Char) (start current line : Nat) :
    Option TokRes := do
  let (c1, line1) ← stringLoop fuel source current line
  let (_, c2) := scanAdvance source c1
  if source.length ≤ c2 then
    some ⟨c2, line1, none, some "String is not terminated"⟩
  else
    let lit := String.mk (sliceChars source (start + 1) (c2 - 1))
    some (addTok .String_ (some (.StringValue lit)) source start c2 line1)

/-- From `scanner.rs` lines 98-177 (`Scanner::scan_token`), entered with
`start = current` (the caller sets `self.start = self.current` just
before, lines 63-70). The branch structure follows the source `match`. -/
def scan_token (fuel : Nat) (source : List Char) (current line : Nat) :
    Option TokRes :=
  let start := current
  let (c, cur1) := scanAdvance source current
  if c = '(' then some (addTok .LeftParen none source start cur1 line)
  else if c = ')' then some (addTok .RightParen none source start cur1 line)
  else if c = '{' then some (addTok .LeftBrace none source start cur1 line)
  else if c = '}' then some (addTok .RightBrace none source start cur1 line)
  else if c = ',' then some (addTok .Comma none source start cur1 line)
  else if c = '.' then some (addTok .Dot none source start cur1 line)
  else if c = '+' then some (addTok .Plus none source start cur1 line)
  else if c = '-' then some (addTok .Minus none source start cur1 line)
  else if c = ';' then some (addTok .Semicolon none source start cur1 line)
  else if c = '*' then some (addTok .Star none source start cur1 line)
  else if c = '!' then
    let (m, cur2) := charMatch source cur1 '='
    some (addTok (if m then .BangEqual else .Bang) none source start cur2 line)
  else if c = '=' then
    let (m, cur2) := charMatch source cur1 '='
    some (addTok (if m then .EqualEqual else .Equal) none source start cur2 line)
  else if c = '>' then
    let (m, cur2) := charMatch source cur1 '='
    some (addTok (if m then .GreaterEqual else .Greater) none source start cur2 line)
  else if c = '<' then
    let (m, cur2) := charMatch source cur1 '='
    some (addTok (if m then .LessEqual else .Less) none source start cur2 line)
  else if c = '/' then
    let (m, cur2) := charMatch source cur1 '/'
    if m then do
      let c3 ← skipComment fuel source cur2
      some ⟨c3, line, none, none⟩
    else some (addTok .Slash none source start cur2 line)
  else if c = '"' then scanString fuel source start cur1 line
  else if c = ' ' ∨ c = '\r' ∨ c = '\t' then some ⟨cur1, line, none, none⟩
  else if c = '\n' then some ⟨cur1, line + 1, none, none⟩
  else if is_digit c then scanNumber fuel source start cur1 line
  else if is_alpha c then scanIdent fuel source start cur1 line
  else some ⟨cur1, line, none,
    some ("Unrecognised char " ++ String.singleton c ++ " at line " ++ toString line)⟩

/-- The `while !self.is_at_end()` loop of `Scanner::scan_tokens`
(`scanner.rs` lines 63-71): collects tokens and errors in order and also
returns the final `line` (used for the Eof token). -/
def scanLoop : Nat → List Char → Nat → Nat → Option (List Token × List String × Nat)
  | 0, _, _, _ => none
  | fuel + 1, source, current, line =>
      if source.length ≤ current then some ([], [], line)
      else do
        let r ← scan_token fuel source current line
        let (toks, errs, lineF) ← scanLoop fuel source r.current r.line
        some (r.tok.toList ++ toks, r.err.toList ++ errs, lineF)

/-- From `scanner.rs` lines 60-90 (`Scanner::scan_tokens`): run the loop,
push the Eof token, then return `Err` with all collected errors joined
(each followed by a newline) when any were recorded, else `Ok` with the
complete token list. The outer `none` is a panic inside the loop. -/
def scan_tokens (source : List Char) : Option (Except String (List Token)) :=
  match scanLoop (source.length + 1) source 0 1 with
  | none => none
  | some (toks, errs, lineF) =>
      let toksAll := toks ++ [⟨TokenType.Eof, "", none, lineF⟩]
      if errs.isEmpty then some (.ok toksAll)
      else some (.error (String.join (errs.map (fun e => e ++ "\n"))))


/-- Notational helpers for concrete token lists used in the statements
about the parser. -/
def tokIdent (s : String) : Token := ⟨.Identifier, s, none, 1⟩

/-- An operator token with the given type and lexeme. -/
def tokOp (tt : TokenType) (l : String) : Token := ⟨tt, l, none, 1⟩

/-- The end-of-file token as the scanner emits it. -/
def tokEof : Token := ⟨.Eof, "", none, 1⟩

/-- The token list of `a op b op c` (two operators of the same level). -/
def tripleToks (op : TokenType) (l : String) : List Token :=
  [tokIdent "a", tokOp op l, tokIdent "b", tokOp op l, tokIdent "c", tokEof]

/-! ## Theorems -/

/-- C1 (code_bug): contrary to the claim, `Resolver::resolve_local` never
records a distance for any node: its loop `for i in (size - 1)..0` is an
ascending Rust range that is empty for every stack height, so the body
that would call `self.interpreter.resolve(expr, size - 1 - i)` never runs.
In particular, for the claimed situation — at least one scope on the stack
and the name present in a scope — nothing is recorded (the claim requires
the hop count to the first scope containing the name to be recorded). -/
theorem C1_resolve_local_records_nothing (scopes : List RScope) (name : String) :
    Resolver.resolve_local scopes name = none := by
  unfold Resolver.resolve_local rustRange
  simp

/-- C10 (confirmed): when the scope stack is non-empty and the innermost
scope has no entry for the variable's name, `Resolver::resolve_expr_var`
`unwrap`s the `None` returned by the innermost scope's map and panics —
it neither returns `Ok` nor `Err`. -/
theorem C10_resolve_expr_var_panics
    (scopes : List RScope) (name : String) (innermost : RScope)
    (hlast : scopes.getLast? = some innermost)
    (hmiss : innermost.lookup name = none) :
    Resolver.resolve_expr_var scopes name = ResolveOutcome.panicked := by
  unfold Resolver.resolve_expr_var
  rw [hlast]
  simp [hmiss]

/-- Witness for C10: a stack of one scope holding only `y`; resolving a
read of `x` panics. -/
theorem C10_resolve_expr_var_panics_witness :
    Resolver.resolve_expr_var [[("y", true)]] "x" = ResolveOutcome.panicked :=
  C10_resolve_expr_var_panics [[("y", true)]] "x" [("y", true)] rfl rfl

/-- C4 counterexample: the claim says every Callable is truthy, but
`is_truthy` on a Callable panics (`"Cannot use callable as truthy value"`),
it does not evaluate to `True`. -/
theorem C4_counterexample :
    LiteralValue.is_truthy (LiteralValue.Callable "clock" 0 0) = none ∧
    LiteralValue.is_truthy (LiteralValue.Callable "clock" 0 0) ≠ some LiteralValue.True := by
  exact ⟨rfl, by decide⟩

/-- C4 (corrected): Nil and False are falsy; True is truthy; a Number is
falsy exactly when it equals 0; a String is falsy exactly when it is
empty; but truthiness of a Callable is a panic (not truthy), and
`is_falsy` is the exact pointwise negation of `is_truthy` (both panicking
on Callables). -/
theorem C4_truthiness :
    (LiteralValue.Nil.is_truthy = some LiteralValue.False ∧
     LiteralValue.False.is_truthy = some LiteralValue.False ∧
     LiteralValue.True.is_truthy = some LiteralValue.True) ∧
    (∀ q : ℚ, ((LiteralValue.Number q).is_truthy = some LiteralValue.False ↔ q = 0) ∧
              ((LiteralValue.Number q).is_truthy = some LiteralValue.True ↔ q ≠ 0)) ∧
    (∀ s : String, ((LiteralValue.StringValue s).is_truthy = some LiteralValue.False ↔ s = "") ∧
                   ((LiteralValue.StringValue s).is_truthy = some LiteralValue.True ↔ s ≠ "")) ∧
    (∀ name arity fn, (LiteralValue.Callable name arity fn).is_truthy = none ∧
                      (LiteralValue.Callable name arity fn).is_falsy = none) ∧
    (∀ v : LiteralValue, v.is_falsy = v.is_truthy.map LiteralValue.notLV) := by
  refine ⟨⟨rfl, rfl, rfl⟩, ?_, ?_, ?_, ?_⟩
  · intro q
    by_cases h : q = 0 <;> simp [LiteralValue.is_truthy, h]
  · intro s
    by_cases h : s = "" <;>
      simp [LiteralValue.is_truthy, h, String.isEmpty_iff]
  · intro name arity fn
    exact ⟨rfl, rfl⟩
  · intro v
    cases v with
    | Number q =>
        by_cases h : q = 0 <;>
          simp [LiteralValue.is_truthy, LiteralValue.is_falsy, LiteralValue.notLV, h]
    | StringValue s =>
        by_cases h : s.isEmpty <;>
          simp [LiteralValue.is_truthy, LiteralValue.is_falsy, LiteralValue.notLV, h]
    | True => rfl
    | False => rfl
    | Nil => rfl
    | Callable name arity fn => rfl

/-- Witness for C4: a nonzero number is truthy. -/
theorem C4_truthiness_witness :
    (LiteralValue.Number 5).is_truthy = some LiteralValue.True :=
  (C4_truthiness.2.1 5).2.mpr (by norm_num)

/-- C5 counterexample: comparing a Number with Nil under `==` (and `!=`)
panics (`"Error in PartialEq of LiteralValue"`) instead of evaluating to
false (resp. true) as the claim states. -/
theorem C5_counterexample :
    evalEqualEqual (LiteralValue.Number 1) LiteralValue.Nil = none ∧
    evalEqualEqual (LiteralValue.Number 1) LiteralValue.Nil ≠ some LiteralValue.False ∧
    evalBangEqual (LiteralValue.Number 1) LiteralValue.Nil = none ∧
    evalBangEqual (LiteralValue.Number 1) LiteralValue.Nil ≠ some LiteralValue.True := by
  refine ⟨rfl, by decide, rfl, by decide⟩

/-- C5 (corrected): same-kind equality compares payloads (numbers by
value, strings by content, Booleans with `True ≠ False`, `Nil = Nil`,
Callables by name and arity); but every cross-kind pair falls into the
`panic!` wildcard arm of `PartialEq` — `==` and `!=` abort instead of
yielding false/true. -/
theorem C5_equality :
    (∀ x y : ℚ, LiteralValue.eq (.Number x) (.Number y) = some (decide (x = y))) ∧
    (∀ x y : String, LiteralValue.eq (.StringValue x) (.StringValue y) = some (decide (x = y))) ∧
    (LiteralValue.eq .True .True = some true ∧ LiteralValue.eq .False .False = some true ∧
     LiteralValue.eq .True .False = some false ∧ LiteralValue.eq .False .True = some false) ∧
    (LiteralValue.eq .Nil .Nil = some true) ∧
    (∀ n1 a1 f1 n2 a2 f2, LiteralValue.eq (.Callable n1 a1 f1) (.Callable n2 a2 f2) =
       some (decide (n1 = n2) && decide (a1 = a2))) ∧
    (∀ v w : LiteralValue, v.to_type ≠ w.to_type → LiteralValue.eq v w = none) ∧
    (∀ v w : LiteralValue,
       evalEqualEqual v w = (LiteralValue.eq v w).map LiteralValue.from_bool ∧
       evalBangEqual v w = (LiteralValue.eq v w).map (fun b => LiteralValue.from_bool (!b))) := by
  refine ⟨fun x y => rfl, fun x y => rfl, ⟨rfl, rfl, rfl, rfl⟩, rfl,
    fun n1 a1 f1 n2 a2 f2 => rfl, ?_, fun v w => ⟨rfl, rfl⟩⟩
  intro v w h
  cases v <;> cases w <;> first | exact absurd rfl h | rfl

/-- Witness for C5: a String compared with Nil panics. -/
theorem C5_equality_witness :
    LiteralValue.eq (.StringValue "a") .Nil = none :=
  C5_equality.2.2.2.2.2.1 (.StringValue "a") .Nil (by decide)

/-- Helper: a successful argument-evaluation loop yields exactly one value
per argument, in order. -/
theorem evalArgsLoop_length {α : Type} (f : α → Except String LiteralValue) :
    ∀ (l : List α) (vs : List LiteralValue),
      evalArgsLoop f l = .ok vs → vs.length = l.length := by
  intro l
  induction l with
  | nil =>
      intro vs h
      simp [evalArgsLoop] at h
      simp [← h]
  | cons a rest ih =>
      intro vs h
      rw [evalArgsLoop] at h
      cases hfa : f a with
      | error e => rw [hfa] at h; exact absurd h (by simp)
      | ok v =>
          rw [hfa] at h
          cases hrest : evalArgsLoop f rest with
          | error e => rw [hrest] at h; exact absurd h (by simp)
          | ok vs2 =>
              rw [hrest] at h
              have := ih vs2 hrest
              simp at h
              simp [← h, this]

/-- Helper: `List.lookup` after a `mapInsert` of the same key. -/
theorem lookup_mapInsert_self (k : String) (v : LiteralValue)
    (m : List (String × LiteralValue)) :
    (mapInsert k v m).lookup k = some v := by
  simp [mapInsert, List.lookup]

/-- Helper: `List.lookup` after a `mapInsert` of a different key. -/
theorem lookup_mapInsert_ne (k k2 : String) (v : LiteralValue)
    (m : List (String × LiteralValue)) (h : k ≠ k2) :
    (mapInsert k2 v m).lookup k = m.lookup k := by
  have hb : (k == k2) = false := beq_eq_false_iff_ne.mpr h
  simp [mapInsert, List.lookup, hb]

/-- Helper: the binding loop leaves keys it never writes untouched. -/
theorem bindParamsAux_lookup_other (params : List String) :
    ∀ (args : List LiteralValue) (k : Nat) (env env2 : List (String × LiteralValue))
      (p : String),
      bindParamsAux params k args env = some env2 →
      (∀ j, j < args.length → params[k + j]? ≠ some p) →
      env2.lookup p = env.lookup p := by
  intro args
  induction args with
  | nil =>
      intro k env env2 p h _
      simp [bindParamsAux] at h
      simp [← h]
  | cons a rest ih =>
      intro k env env2 p h hne
      rw [bindParamsAux] at h
      cases hk : params[k]? with
      | none => rw [hk] at h; exact absurd h (by simp)
      | some q =>
          rw [hk] at h
          have hq : q ≠ p := by
            intro hqp
            exact hne 0 (by simp) (by simpa [hqp] using hk)
          have := ih (k + 1) (mapInsert q a env) env2 p h
            (fun j hj => by
              have := hne (j + 1) (by simpa using Nat.succ_lt_succ hj)
              simpa [Nat.add_assoc, Nat.add_comm 1 j, Nat.add_left_comm] using this)
          rw [this, lookup_mapInsert_ne p q a env (fun hpq => hq hpq.symm)]

/-- Helper: the binding loop succeeds and binds each parameter to the
argument in the same position, provided the parameter list has no
duplicates and the loop stays in bounds. -/
theorem bindParamsAux_spec (params : List String) (hnd : params.Nodup) :
    ∀ (args : List LiteralValue) (k : Nat) (env : List (String × LiteralValue)),
      k + args.length ≤ params.length →
      ∃ env2, bindParamsAux params k args env = some env2 ∧
        ∀ i p a, params[k + i]? = some p → args[i]? = some a →
          env2.lookup p = some a := by
  intro args
  induction args with
  | nil =>
      intro k env _
      refine ⟨env, by simp [bindParamsAux], ?_⟩
      intro i p a _ ha
      simp at ha
  | cons arg rest ih =>
      intro k env hlen
      have hkd : k < params.length := by simp at hlen; omega
      obtain ⟨q, hq⟩ : ∃ q, params[k]? = some q := by
        simp [List.getElem?_eq_getElem hkd]
      obtain ⟨env2, henv2, hbind⟩ :=
        ih (k + 1) (mapInsert q arg env) (by simp at hlen ⊢; omega)
      refine ⟨env2, ?_, ?_⟩
      · rw [bindParamsAux, hq]
        exact henv2
      · intro i p a hp ha
        cases i with
        | zero =>
            simp only [Nat.add_zero] at hp
            rw [hq] at hp
            injection hp with hp
            subst hp
            simp at ha
            subst ha
            rw [bindParamsAux_lookup_other params rest (k + 1) (mapInsert q arg env)
              env2 q henv2 ?_]
            · exact lookup_mapInsert_self q arg env
            · intro j hj hcon
              have heq : k = k + 1 + j := by
                apply List.getElem?_inj hkd hnd
                rw [hq, hcon]
              omega
        | succ i2 =>
            have hp2 : params[(k + 1) + i2]? = some p := by
              have : k + (i2 + 1) = (k + 1) + i2 := by omega
              rw [← this]
              exact hp
            have ha2 : rest[i2]? = some a := by simpa using ha
            exact hbind i2 p a hp2 ha2

/-- C9 (confirmed): a call whose argument count differs from the
callable's recorded arity fails with the runtime error naming both the
expected (`arity`) and actual (`args.length`) counts — for EVERY possible
body (`applyFn` universally quantified, and the arguments are not even
evaluated since `evalArg` is arbitrary too), so the body is never entered;
the error message spells both counts (conjunct 2 displays the exact
format); when the counts are equal the evaluated arguments are passed to
the implementation unchanged — one value per argument, never padded or
truncated (conjunct 3) — and `func_impl`'s binding loop binds each
parameter to the argument in the same position (conjunct 4). -/
theorem C9_call_arity :
    (∀ (α : Type) (name : String) (arity fn : Nat) (args : List α) evalArg applyFn,
        args.length ≠ arity →
        evalCallArm (.Callable name arity fn) args evalArg applyFn =
          .error (arityErrMsg name arity args.length)) ∧
    (∀ (name : String) (a g : Nat),
        arityErrMsg name a g =
          "Callable '" ++ name ++ "' expexted " ++ toString a ++
            " arguments and got " ++ toString g ++ " arguments") ∧
    (∀ (α : Type) (name : String) (arity fn : Nat) (args : List α) evalArg applyFn argsVal,
        args.length = arity →
        evalArgsLoop evalArg args = .ok argsVal →
        evalCallArm (.Callable name arity fn) args evalArg applyFn =
          .ok (applyFn fn argsVal) ∧ argsVal.length = arity) ∧
    (∀ (params : List String) (args : List LiteralValue)
        (env : List (String × LiteralValue)),
        params.length = args.length → params.Nodup →
        ∃ env2, bindParams params args env = some env2 ∧
          ∀ (i : Nat) (p : String) (a : LiteralValue),
            params[i]? = some p → args[i]? = some a →
            env2.lookup p = some a) := by
  refine ⟨?_, fun name a g => rfl, ?_, ?_⟩
  · intro α name arity fn args evalArg applyFn h
    simp [evalCallArm, h]
  · intro α name arity fn args evalArg applyFn argsVal h hloop
    constructor
    · simp only [evalCallArm, h, hloop]
      rw [if_neg (by omega)]
      simp [Bind.bind, Except.bind]
    · rw [← h]
      exact evalArgsLoop_length evalArg args argsVal hloop
  · intro params args env hlen hnd
    obtain ⟨env2, h1, h2⟩ := bindParamsAux_spec params hnd args 0 env (by omega)
    exact ⟨env2, h1, fun i p a hp ha => h2 i p a (by simpa using hp) ha⟩

/-- Witness for C9: calling a 2-parameter callable with 1 argument yields
the arity error, for an arbitrary body; with 2 arguments the body receives
exactly the two evaluated values, and the binding loop binds `x` and `y`
positionally. -/
theorem C9_call_arity_witness :
    evalCallArm (α := LiteralValue) (.Callable "f" 2 0) [.Nil]
        (fun v => .ok v) (fun _ _ => .Nil) = .error (arityErrMsg "f" 2 1) ∧
    evalCallArm (α := LiteralValue) (.Callable "f" 2 0) [.Nil, .True]
        (fun v => .ok v) (fun _ vs => .StringValue (toString vs.length)) =
      .ok (.StringValue "2") ∧
    ∃ env2, bindParams ["x", "y"] [.Nil, .True] [] = some env2 ∧
      env2.lookup "x" = some .Nil := by
  refine ⟨C9_call_arity.1 LiteralValue "f" 2 0 [.Nil] _ _ (by decide), ?_, ?_⟩
  · exact (C9_call_arity.2.2.1 LiteralValue "f" 2 0 [.Nil, .True] (fun v => .ok v)
      (fun _ vs => .StringValue (toString vs.length)) [.Nil, .True] rfl rfl).1
  · obtain ⟨env2, h1, h2⟩ := C9_call_arity.2.2.2 ["x", "y"] [.Nil, .True] []
      (by decide) (by decide)
    exact ⟨env2, h1, h2 0 "x" .Nil rfl rfl⟩

/-- C6 counterexample: `assign` with no distance through a non-global
frame writes into that frame's OWN `globals` map. Here the chain is a
child frame enclosing the (actual) global frame `Environment.new`: the
assignment of `x` succeeds and `x` is readable back through the child
frame, yet the global frame — unchanged, and visibly still the `enclosing`
of the updated child in the first conjunct — does not contain `x`
(`some none` = no panic, lookup miss, which evaluation reports as
"Variable 'x' is not defined"). The claim's "readable as the same global
from every other frame" therefore fails: there is no single global frame. -/
theorem C6_counterexample :
    (Environment.mk [] (some Environment.new) stdGlobals).assign "x"
        (LiteralValue.Number 1) none
      = some (Environment.mk [] (some Environment.new)
          (mapInsert "x" (LiteralValue.Number 1) stdGlobals), true) ∧
    (Environment.mk [] (some Environment.new)
        (mapInsert "x" (LiteralValue.Number 1) stdGlobals)).get "x" none
      = some (some (LiteralValue.Number 1)) ∧
    Environment.new.get "x" none = some none := by
  exact ⟨rfl, rfl, rfl⟩

/-- Helper for C6: whenever `assign` returns (does not panic), the flag it
returns is `true`. -/
theorem Environment.assign_flag (dist : Option Nat) :
    ∀ (e : Environment) (n : String) (v : LiteralValue) (r : Environment × Bool),
      e.assign n v dist = some r → r.2 = true := by
  cases dist with
  | none =>
      intro e n v r h
      cases e
      simp [Environment.assign] at h
      rw [← h]
  | some d =>
      induction d with
      | zero =>
          intro e n v r h
          cases e
          simp [Environment.assign] at h
          rw [← h]
      | succ d2 ih =>
          intro e n v r h
          cases e with
          | mk vals enc glob =>
              cases enc with
              | none => simp [Environment.assign] at h
              | some p =>
                  rw [Environment.assign] at h
                  cases hp : p.assign n v (some d2) with
                  | none => rw [hp] at h; simp at h
                  | some r2 =>
                      rw [hp] at h
                      simp at h
                      rw [← h]
                      exact ih p n v r2 hp

/-- Helper for C6: when the chain has a frame at distance d, `assign` with
that distance does not panic. -/
theorem Environment.assign_isSome :
    ∀ (d : Nat) (e : Environment) (n : String) (v : LiteralValue) (f : Environment),
      e.frameAt d = some f → (e.assign n v (some d)).isSome = true := by
  intro d
  induction d with
  | zero =>
      intro e n v f _
      cases e
      simp [Environment.assign]
  | succ d2 ih =>
      intro e n v f hf
      cases e with
      | mk vals enc glob =>
          cases enc with
          | none => simp [Environment.frameAt, Environment.enclosing] at hf
          | some p =>
              have hpf : p.frameAt d2 = some f := by
                simpa [Environment.frameAt, Environment.enclosing] using hf
              have := ih p n v f hpf
              rw [Environment.assign]
              cases hp : p.assign n v (some d2) with
              | none => rw [hp] at this; simp at this
              | some r2 => simp

/-- Helper for C6: `assign` at distance d overwrites the frame at exactly
d hops (inserting into its `values`) and leaves the `values` of the frame
at every other distance unchanged. -/
theorem Environment.assign_frameAt :
    ∀ (d : Nat) (e : Environment) (n : String) (v : LiteralValue) (f : Environment)
      (e2 : Environment) (b : Bool),
      e.frameAt d = some f → e.assign n v (some d) = some (e2, b) →
      e2.frameAt d = some (.mk (mapInsert n v f.values) f.enclosing f.globals) ∧
      ∀ k, k ≠ d →
        (e2.frameAt k).map Environment.values = (e.frameAt k).map Environment.values := by
  intro d
  induction d with
  | zero =>
      intro e n v f e2 b hf h
      simp [Environment.frameAt] at hf
      subst hf
      cases e with
      | mk vals enc glob =>
          simp [Environment.assign] at h
          constructor
          · simp [← h.1, Environment.frameAt, Environment.values,
              Environment.enclosing, Environment.globals]
          · intro k hk
            cases k with
            | zero => exact absurd rfl hk
            | succ k2 =>
                simp [← h.1, Environment.frameAt, Environment.enclosing]
  | succ d2 ih =>
      intro e n v f e2 b hf h
      cases e with
      | mk vals enc glob =>
          cases enc with
          | none => simp [Environment.frameAt, Environment.enclosing] at hf
          | some p =>
              have hpf : p.frameAt d2 = some f := by
                simpa [Environment.frameAt, Environment.enclosing] using hf
              rw [Environment.assign] at h
              cases hp : p.assign n v (some d2) with
              | none => rw [hp] at h; simp at h
              | some r2 =>
                  rw [hp] at h
                  simp at h
                  obtain ⟨hfr, hpres⟩ := ih p n v f r2.1 r2.2 hpf (by simpa using hp)
                  constructor
                  · rw [← h.1]
                    simpa [Environment.frameAt, Environment.enclosing] using hfr
                  · intro k hk
                    cases k with
                    | zero =>
                        simp [← h.1, Environment.frameAt, Environment.values]
                    | succ k2 =>
                        have : k2 ≠ d2 := by omega
                        rw [← h.1]
                        simpa [Environment.frameAt, Environment.enclosing] using hpres k2 this

/-- Helper for C6: `assign` panics (returns `none`) when the chain runs
out of enclosing links before the hop count is exhausted. -/
theorem Environment.assign_panics :
    ∀ (d : Nat) (e : Environment) (n : String) (v : LiteralValue),
      e.frameAt d = none → e.assign n v (some d) = none := by
  intro d
  induction d with
  | zero =>
      intro e n v h
      simp [Environment.frameAt] at h
  | succ d2 ih =>
      intro e n v h
      cases e with
      | mk vals enc glob =>
          cases enc with
          | none => simp [Environment.assign]
          | some p =>
              have hp : p.frameAt d2 = none := by
                simpa [Environment.frameAt, Environment.enclosing] using h
              rw [Environment.assign]
              rw [ih p n v hp]
              rfl

/-- C6 (corrected): `Environment::assign` with no distance writes the
binding into the receiving frame's own `globals` map, creating the name
there if absent, and always succeeds — but every frame owns a separate
`globals` map, so the write is visible only through lookups on that same
frame, not "from every other frame" (see `C6_counterexample`). With a
distance of d it walks exactly d enclosing links and overwrites the
`values` there, leaving the `values` of every other frame of the chain
unchanged; whenever `assign` returns, its flag is `true`; and if the
chain runs out of enclosing links before d hops, it panics (fatal, the
`none` result), not a recoverable user error. -/
theorem C6_environment_assign :
    (∀ (e : Environment) (n : String) (v : LiteralValue),
        e.assign n v none =
          some (.mk e.values e.enclosing (mapInsert n v e.globals), true)) ∧
    (∀ (dist : Option Nat) (e : Environment) (n : String) (v : LiteralValue)
        (r : Environment × Bool), e.assign n v dist = some r → r.2 = true) ∧
    (∀ (d : Nat) (e : Environment) (n : String) (v : LiteralValue) (f : Environment),
        e.frameAt d = some f →
        (e.assign n v (some d)).isSome = true ∧
        ∀ (e2 : Environment) (b : Bool), e.assign n v (some d) = some (e2, b) →
          e2.frameAt d = some (.mk (mapInsert n v f.values) f.enclosing f.globals) ∧
          ∀ k, k ≠ d →
            (e2.frameAt k).map Environment.values = (e.frameAt k).map Environment.values) ∧
    (∀ (d : Nat) (e : Environment) (n : String) (v : LiteralValue),
        e.frameAt d = none → e.assign n v (some d) = none) := by
  refine ⟨?_, Environment.assign_flag, ?_, Environment.assign_panics⟩
  · intro e n v
    cases e
    rfl
  · intro d e n v f hf
    exact ⟨Environment.assign_isSome d e n v f hf,
      fun e2 b h => Environment.assign_frameAt d e n v f e2 b hf h⟩

/-- Witness for C6: on a two-frame chain, assigning at distance 1 does not
panic, and assigning at distance 2 (past the end of the chain) panics. -/
theorem C6_environment_assign_witness :
    ((Environment.mk [] (some Environment.new) stdGlobals).assign "x"
        (LiteralValue.Number 2) (some 1)).isSome = true ∧
    (Environment.mk [] (some Environment.new) stdGlobals).assign "x"
        (LiteralValue.Number 2) (some 2) = none :=
  ⟨(C6_environment_assign.2.2.1 1 (Environment.mk [] (some Environment.new) stdGlobals)
      "x" (LiteralValue.Number 2) Environment.new rfl).1,
   C6_environment_assign.2.2.2 2 (Environment.mk [] (some Environment.new) stdGlobals)
      "x" (LiteralValue.Number 2) rfl⟩

/-- C2 (confirmed): the `Stmt::Function` arm captures the frame active at
declaration time BY REFERENCE (`let parent_env = self.environments.clone()`
is an `Rc` clone — in the arena model, the same handle `fid`), so a
mutation of that frame performed through any holder of the handle between
declaration and call is what a later invocation sees: invocation builds a
fresh frame enclosing the captured handle (`Interpreter::for_closure`) and
reading the variable one hop up the chain yields the CURRENT value `v1`,
not the declaration-time value `v0`. Holds for every heap, frame, name and
pair of values — in particular after the declaring block has exited, since
nothing here keeps the declaring scope "live" other than the captured
handle itself. -/
theorem C2_closure_reference_capture
    (h : Heap) (fid : Nat) (a : String) (v0 v1 : LiteralValue)
    (_hv0 : Heap.get h fid a (some 0) = some (some v0))
    (h2 : Heap) (hassign : Heap.assign h fid a v1 (some 0) = some (h2, true)) :
    Heap.get (Interpreter.for_closure h2 fid).1 (Interpreter.for_closure h2 fid).2
      a (some 1) = some (some v1) := by
  rw [Heap.assign, Heap.assignDist] at hassign
  cases hf : h[fid]? with
  | none => rw [hf] at hassign; simp at hassign
  | some f =>
      rw [hf] at hassign
      simp at hassign
      have hfid : fid < h.length := (List.getElem?_eq_some_iff.mp hf).1
      have hlen2 : h2.length = h.length := by
        rw [← hassign]; exact List.length_set h fid _
      have hfid2 : fid < h2.length := by omega
      simp only [Interpreter.for_closure]
      rw [Heap.get]
      have step1 : Heap.getDist (h2 ++ [⟨[], some fid, stdGlobals⟩]) a 1 h2.length =
          match (h2 ++ [(⟨[], some fid, stdGlobals⟩ : Frame)])[h2.length]? with
          | none => none
          | some f =>
              match f.enclosing with
              | none => none
              | some p => Heap.getDist (h2 ++ [⟨[], some fid, stdGlobals⟩]) a 0 p := rfl
      rw [step1, List.getElem?_concat_length]
      show Heap.getDist (h2 ++ [⟨[], some fid, stdGlobals⟩]) a 0 fid = some (some v1)
      have step2 : Heap.getDist (h2 ++ [⟨[], some fid, stdGlobals⟩]) a 0 fid =
          match (h2 ++ [(⟨[], some fid, stdGlobals⟩ : Frame)])[fid]? with
          | none => none
          | some f => some (f.values.lookup a) := rfl
      rw [step2, List.getElem?_append_left hfid2, ← hassign, List.getElem?_set_self hfid]
      exact congrArg some (lookup_mapInsert_self a v1 f.values)

/-- Witness for C2: a one-frame heap holding `a = 0`; after mutating `a`
to `2` through the captured handle, a call frame enclosing it reads `2`. -/
theorem C2_closure_reference_capture_witness :
    Heap.get (Interpreter.for_closure
        [⟨[("a", LiteralValue.Number 2), ("a", LiteralValue.Number 0)], none, stdGlobals⟩] 0).1
      (Interpreter.for_closure
        [⟨[("a", LiteralValue.Number 2), ("a", LiteralValue.Number 0)], none, stdGlobals⟩] 0).2
      "a" (some 1) = some (some (LiteralValue.Number 2)) :=
  C2_closure_reference_capture
    [⟨[("a", LiteralValue.Number 0)], none, stdGlobals⟩] 0 "a"
    (LiteralValue.Number 0) (LiteralValue.Number 2) rfl
    [⟨[("a", LiteralValue.Number 2), ("a", LiteralValue.Number 0)], none, stdGlobals⟩] rfl

/-- C3 counterexample: the function body is one nested block containing
`return 1; print "x"; return 2;`. The claim says the call yields 1 and
that no further statement of the body executes after the first `Return`.
In the code the return signal is only inspected by `func_impl` BETWEEN
top-level body statements, and neither the `interpret` statement loop nor
the `Block` arm checks it, so the print still executes (output `"x"`) and
the second `Return` overwrites the slot: the call yields 2. -/
theorem C3_counterexample :
    funcImpl 10 [CStmt.block [CStmt.ret (some (.lit (.Number 1))),
        CStmt.print (.lit (.StringValue "x")),
        CStmt.ret (some (.lit (.Number 2)))]] initCallState
      = some (LiteralValue.Number 2,
          ⟨some (LiteralValue.Number 2), ["\"x\""]⟩) ∧
    LiteralValue.Number 2 ≠ LiteralValue.Number 1 ∧
    (["\"x\""] : List String) ≠ [] := by
  refine ⟨?_, by decide, by decide⟩
  simp [funcImpl, runStmts, runStmt, initCallState, CExpr.eval, LiteralValue.render]

/-- C3 (corrected): a call yields the value of the LAST `Return` executed
in its body (Nil when the `Return` has no operand), and Nil when none
executed; but the return signal is consulted only after each TOP-LEVEL
statement of the function body — a `Return` inside a nested block or
while loop does not stop the remaining statements or iterations of that
construct (see `C3_counterexample`), it only prevents the following
top-level body statements from running. Conjuncts: (1) once a top-level
statement leaves the slot set, `func_impl` yields that value and the
remaining top-level statements are never executed; (2) a completed call
yields the slot's value, or Nil with the slot still empty; (3) the
`Return` arm stores the operand's value (Nil when absent) in the slot;
(4) the `Block` arm hands its statements to the plain statement loop —
no slot check; (5) the statement loop continues into the rest of the
list regardless of what the first statement left in the slot. -/
theorem C3_return_propagation :
    (∀ (fuel : Nat) (s : CStmt) (rest : List CStmt) (st st1 : IState)
        (v : LiteralValue),
        runStmts fuel [s] st = some st1 → st1.retSlot = some v →
        funcImpl fuel (s :: rest) st = some (v, st1)) ∧
    (∀ (fuel : Nat) (body : List CStmt) (st : IState) (v : LiteralValue)
        (st2 : IState),
        st.retSlot = none → funcImpl fuel body st = some (v, st2) →
        (st2.retSlot = some v ∨ (v = LiteralValue.Nil ∧ st2.retSlot = none))) ∧
    (∀ (fuel : Nat) (value : Option CExpr) (st : IState),
        runStmt fuel (.ret value) st =
          some { st with retSlot := some (match value with
                                          | some e => e.eval
                                          | none => LiteralValue.Nil) }) ∧
    (∀ (fuel : Nat) (stmts : List CStmt) (st : IState),
        runStmt (fuel + 1) (.block stmts) st = runStmts fuel stmts st) ∧
    (∀ (fuel : Nat) (s : CStmt) (rest : List CStmt) (st st1 : IState),
        runStmt fuel s st = some st1 →
        runStmts fuel (s :: rest) st = runStmts fuel rest st1) := by
  refine ⟨?_, ?_, ?_, ?_, ?_⟩
  · intro fuel s rest st st1 v h hslot
    rw [funcImpl, h]
    show (match st1.retSlot with
          | some val => some (val, st1)
          | none => funcImpl fuel rest st1) = some (v, st1)
    rw [hslot]
  · intro fuel body
    induction body with
    | nil =>
        intro st v st2 hnone h
        rw [funcImpl] at h
        simp at h
        right
        rw [← h.1, ← h.2]
        exact ⟨rfl, hnone⟩
    | cons s rest ih =>
        intro st v st2 hnone h
        rw [funcImpl] at h
        cases hr : runStmts fuel [s] st with
        | none => rw [hr] at h; simp at h
        | some st1 =>
            rw [hr] at h
            replace h : (match st1.retSlot with
                | some val => some (val, st1)
                | none => funcImpl fuel rest st1) = some (v, st2) := h
            cases hs : st1.retSlot with
            | some val =>
                rw [hs] at h
                simp at h
                left
                rw [← h.1, ← h.2, hs]
            | none =>
                rw [hs] at h
                exact ih st1 v st2 hs h
  · intro fuel value st
    cases fuel <;> cases value <;> simp [runStmt]
  · intro fuel stmts st
    simp [runStmt]
  · intro fuel s rest st st1 h
    rw [runStmts.eq_def]
    show (match runStmt fuel s st with
          | none => none
          | some st1 => runStmts fuel rest st1) = runStmts fuel rest st1
    rw [h]

/-- Witness for C3: when the first TOP-LEVEL body statement is a
`Return`, the call yields its value and the following `print` never runs
(empty output). -/
theorem C3_return_propagation_witness :
    funcImpl 5 [CStmt.ret (some (.lit .True)), CStmt.print (.lit .Nil)] initCallState
      = some (LiteralValue.True, ⟨some LiteralValue.True, []⟩) :=
  C3_return_propagation.1 5 (CStmt.ret (some (.lit .True))) [CStmt.print (.lit .Nil)]
    initCallState ⟨some LiteralValue.True, []⟩ LiteralValue.True
    (by simp [runStmts, runStmt, initCallState, CExpr.eval]) rfl

/-- C7 counterexample: on the input `a or b or c` the parser's expression
entry point returns after consuming only `a or b` (position 3 of 5
pre-Eof tokens) with the two-operand tree — `Parser::or` is a single
`if`, not a loop, so the claim's left-leaning three-operand tree with the
whole expression consumed (position 5) is false at this input. -/
theorem C7_counterexample :
    Parser.expression 20 ⟨tripleToks .Or "or", 0⟩
      = .ok (Expr.Logical (.Variable (tokIdent "a")) (tokOp .Or "or")
          (.Variable (tokIdent "b")), ⟨tripleToks .Or "or", 3⟩) ∧
    (3 : Nat) ≠ 5 :=
  ⟨rfl, by decide⟩

/-- C7 (corrected): the equality, comparison, term and factor levels do
loop while another operator of their set follows, producing a left-leaning
tree and consuming the whole `a op b op c` input (first four conjuncts, at
representative inputs for `+`, `*`, `==`, `<`); but the `or` and `and`
levels use a single `if` instead of a loop, so they consume at most one
operator per invocation and leave the rest of `a op b op c` unconsumed
(last two conjuncts: the parse stops at position 3 with a two-operand
tree). -/
theorem C7_binary_levels :
    (Parser.expression 20 ⟨tripleToks .Plus "+", 0⟩
      = .ok (Expr.Binary
          (Expr.Binary (.Variable (tokIdent "a")) (tokOp .Plus "+")
            (.Variable (tokIdent "b")))
          (tokOp .Plus "+") (.Variable (tokIdent "c")), ⟨tripleToks .Plus "+", 5⟩)) ∧
    (Parser.expression 20 ⟨tripleToks .Star "*", 0⟩
      = .ok (Expr.Binary
          (Expr.Binary (.Variable (tokIdent "a")) (tokOp .Star "*")
            (.Variable (tokIdent "b")))
          (tokOp .Star "*") (.Variable (tokIdent "c")), ⟨tripleToks .Star "*", 5⟩)) ∧
    (Parser.expression 20 ⟨tripleToks .EqualEqual "==", 0⟩
      = .ok (Expr.Binary
          (Expr.Binary (.Variable (tokIdent "a")) (tokOp .EqualEqual "==")
            (.Variable (tokIdent "b")))
          (tokOp .EqualEqual "==") (.Variable (tokIdent "c")),
          ⟨tripleToks .EqualEqual "==", 5⟩)) ∧
    (Parser.expression 20 ⟨tripleToks .Less "<", 0⟩
      = .ok (Expr.Binary
          (Expr.Binary (.Variable (tokIdent "a")) (tokOp .Less "<")
            (.Variable (tokIdent "b")))
          (tokOp .Less "<") (.Variable (tokIdent "c")), ⟨tripleToks .Less "<", 5⟩)) ∧
    (Parser.expression 20 ⟨tripleToks .Or "or", 0⟩
      = .ok (Expr.Logical (.Variable (tokIdent "a")) (tokOp .Or "or")
          (.Variable (tokIdent "b")), ⟨tripleToks .Or "or", 3⟩)) ∧
    (Parser.expression 20 ⟨tripleToks .And "and", 0⟩
      = .ok (Expr.Logical (.Variable (tokIdent "a")) (tokOp .And "and")
          (.Variable (tokIdent "b")), ⟨tripleToks .And "and", 3⟩)) :=
  ⟨rfl, rfl, rfl, rfl, rfl, rfl⟩

/-- C8 (code_bug): the claim (with spec section 4.1) requires every source
text to scan to completion with all errors collected and success exactly
when none were recorded. The first conjunct shows the failing input: on
`"1."` the scanner PANICS — `peek_next`'s bound check is
`current + 1 > len` instead of `>= len`, so with the trailing dot at end
of input it indexes one past the end — although the input contains no
lexical error at all (per the spec it scans as `Number(1), Dot`). The
remaining conjuncts show the claimed machinery is otherwise present: an
unrecognized character is recorded as a line-tagged error while the scan
continues and still collects the following token (`"@;"` at the loop
level), several bad characters are all collected (`"@#"`), the error case
reports them joined, the clean case succeeds with the Eof-terminated
token list, and `".1"` scans as `Dot, Number(1)`. -/
theorem C8_scanner_aggregation :
    scan_tokens ['1', '.'] = none ∧
    scanLoop 3 ['@', ';'] 0 1
      = some ([⟨.Semicolon, ";", none, 1⟩], ["Unrecognised char @ at line 1"], 1) ∧
    scanLoop 3 ['@', '#'] 0 1
      = some ([], ["Unrecognised char @ at line 1", "Unrecognised char # at line 1"], 1) ∧
    scan_tokens ['@', ';'] = some (.error "Unrecognised char @ at line 1\n") ∧
    scan_tokens ['('] = some (.ok [⟨.LeftParen, "(", none, 1⟩, ⟨.Eof, "", none, 1⟩]) ∧
    scan_tokens ['.', '1'] = some (.ok [⟨.Dot, ".", none, 1⟩,
        ⟨.Number, "1", some (.FloatValue 1), 1⟩, ⟨.Eof, "", none, 1⟩]) :=
  ⟨rfl, rfl, rfl, rfl, rfl, rfl⟩
